import Mathlib

/-!
Verification development for the rice-pest detection and pesticide
recommendation application.  The repository has two programs:

* `推荐系统.py` — a single-image detect-and-recommend tool
  (`SimplePesticideApp`): it groups detections by label, looks up a
  pesticide table and scales the base dosage by a user-typed field area.
* `app.py` — a streaming detector (`YOLODetector` driving a
  `VideoWorker` thread): it reads frames from a camera/video source,
  runs the model on each frame, and publishes per-frame statistics.

Both are shallowly embedded below: pure functions mirror pure code,
stateful UI code becomes explicit state passing on record types, machine
floats become `ℚ`, and Python dicts become insertion-ordered association
lists (a key occurs at most once; assignment to an existing key updates
in place, assignment to a fresh key appends).
-/

namespace Tuijian

/-- Table `LABEL_MAP` from `推荐系统.py`: English label → Chinese display name. -/
def LABEL_MAP : List (String × String) :=
  [("green-leafhopper", "绿色叶蝉"),
   ("rice-bug", "稻蝽"),
   ("leaf-folder", "卷叶虫"),
   ("stem-borer", "茎螟"),
   ("whorl-maggot", "叶鞘蛆")]

/-- Table `PESTICIDE_DB` from `推荐系统.py`: English label → (pesticide name,
base dosage in ml per 亩).  Dosages are integer literals in the source;
they are cast to `ℚ` only where they get multiplied by the (possibly
fractional) area. -/
def PESTICIDE_DB : List (String × (String × ℕ)) :=
  [("green-leafhopper", ("吡虫啉", 30)),
   ("rice-bug", ("氯氰菊酯", 50)),
   ("leaf-folder", ("甲维盐", 40)),
   ("stem-borer", ("氯虫苯甲酰胺", 60)),
   ("whorl-maggot", ("吡蚜酮", 35))]

/-- Lookup `LABEL_MAP.get(eng_label, eng_label)`: Chinese name with identity
fallback. -/
def labelName (l : String) : String := (LABEL_MAP.lookup l).getD l

/-- Lookup `PESTICIDE_DB.get(eng_label, ["未知", 0])`: pesticide and base dosage
with the sentinel fallback `("未知", 0)` for labels absent from the
table. -/
def pesticideFor (l : String) : String × ℕ := (PESTICIDE_DB.lookup l).getD ("未知", 0)

/-- One entry of `self.pest_data`: the dict
`{"english": …, "chinese": …, "pesticide": …, "base_dosage": …, "count": …}`
built in `SimplePesticideApp.run_detection`. -/
structure PestRecord where
  english : String
  chinese : String
  pesticide : String
  base_dosage : ℕ
  count : Nat
deriving DecidableEq, Repr

/-- The record `run_detection` appends to `self.pest_data` for one
detected box with label `l` (count starts at 1). -/
def mkRecord (l : String) : PestRecord :=
  { english := l
    chinese := labelName l
    pesticide := (pesticideFor l).1
    base_dosage := (pesticideFor l).2
    count := 1 }

/-- First pass of `run_detection`: one `PestRecord` per detected box, in
box order, each with `count = 1`. -/
def buildRaw (labels : List String) : List PestRecord :=
  labels.map mkRecord

/-- One step of the `pest_dict` aggregation loop in `run_detection`:
`pest_dict[key]["count"] += 1` when the label is already a key,
`pest_dict[key] = item.copy()` otherwise.  The dict is modelled as an
insertion-ordered association list, so an existing key is updated in
place and a fresh key is appended. -/
def insertRecord : List PestRecord → PestRecord → List PestRecord
  | [], item => [item]
  | r :: rest, item =>
      if r.english = item.english then { r with count := r.count + 1 } :: rest
      else r :: insertRecord rest item

/-- The whole `pest_dict` aggregation loop followed by
`self.pest_data = list(pest_dict.values())`. -/
def aggregateRecords (items : List PestRecord) : List PestRecord :=
  items.foldl insertRecord []

/-- Function `SimplePesticideApp.run_detection` restricted to its data content:
from the sequence of detected labels (one per box, in box order) to the
new `self.pest_data`. -/
def run_detection (labels : List String) : List PestRecord :=
  aggregateRecords (buildRaw labels)

/-- Value of a digit sequence; `none` if any character is not a digit.
The empty sequence has value `0` (callers must reject it separately). -/
def digitsVal (cs : List Char) : Option Nat :=
  cs.foldl (fun acc c =>
    match acc with
    | none => none
    | some n => if c.isDigit then some (n * 10 + (c.toNat - 48)) else none)
    (some 0)

/-- Python's `float(s)` on the plain decimal literals the area field is
meant to hold: optional sign, digits, optional single decimal point.
(`float` also accepts exponents, `inf`/`nan` and surrounding whitespace;
those inputs are not modelled and map to `none`, i.e. to the same
defaulting branch an unparseable string takes.) -/
def parseFloat (s : String) : Option ℚ :=
  let cs := s.data
  let sgn : ℚ := match cs with | '-' :: _ => -1 | _ => 1
  let body : List Char := match cs with
    | '-' :: rest => rest
    | '+' :: rest => rest
    | _ => cs
  let ip := body.takeWhile (fun c => c ≠ '.')
  match body.dropWhile (fun c => c ≠ '.') with
  | [] =>
      match digitsVal ip with
      | some n => if ip.isEmpty then none else some (sgn * n)
      | none => none
  | _ :: frac =>
      if frac.contains '.' then none
      else
        match digitsVal ip, digitsVal frac with
        | some n, some f =>
            if ip.isEmpty ∧ frac.isEmpty then none
            else some (sgn * ((n : ℚ) + (f : ℚ) / (10 : ℚ) ^ frac.length))
        | _, _ => none

/-- The area computation at the top of `update_recommendation`:
`area = float(area_text) if area_text else 1`, with the `except` clause
mapping a failed parse to `1`.  Note the source applies no sign or zero
check: a parsed value is used as-is even when it is `0` or negative. -/
def areaOf (area_text : String) : ℚ :=
  if area_text.isEmpty then 1 else (parseFloat area_text).getD 1

/-- One displayed block of `update_recommendation` for one `PestRecord`:
the fields interpolated into the four result lines.  `total_dosage`
carries the exact value `base_dosage * area`; the `:.1f` rounding in the
source affects only the rendered string. -/
structure RecLine where
  chinese : String
  pesticide : String
  base_dosage : ℕ
  total_dosage : ℚ
deriving DecidableEq, Repr

/-- The block `update_recommendation` emits for `item`. -/
def lineOf (area : ℚ) (item : PestRecord) : RecLine :=
  { chinese := item.chinese
    pesticide := item.pesticide
    base_dosage := item.base_dosage
    total_dosage := (item.base_dosage : ℚ) * area }

/-- What `update_recommendation` writes to `result_label`: either the
sentinel text `"未检测到害虫"` (when `pest_data` is empty) or one block
per stored record. -/
inductive RecOutput where
  | noPests
  | report (lines : List RecLine)
deriving DecidableEq, Repr

/-- Function `SimplePesticideApp.update_recommendation` restricted to its data
content: from the stored `pest_data` and the raw area text to the result
shown in `result_label`. -/
def update_recommendation (pest_data : List PestRecord) (area_text : String) : RecOutput :=
  let area := areaOf area_text
  if pest_data.isEmpty then .noPests
  else .report (pest_data.map (lineOf area))

/-- The mutable state of `SimplePesticideApp` that the recommendation
workflow touches: `self.model`/`self.current_img` (abstracted to
presence flags), `self.pest_data`, the area field's text and the result
label.  `model_calls` counts invocations of the detection model, so
that "detection is not re-run" is an observable statement. -/
structure TState where
  modelLoaded : Bool
  hasImage : Bool
  pest_data : List PestRecord
  area_text : String
  result : RecOutput
  model_calls : Nat
deriving DecidableEq, Repr

/-- Handler wiring of `textChanged` in `init_ui`
(`self.area_input.textChanged.connect(self.update_recommendation)`):
editing the area field stores the new text and re-runs
`update_recommendation`, whose body reads `self.pest_data` and the area
text and writes only `result_label` — it contains no model call and no
write to `pest_data`. -/
def onAreaChanged (s : TState) (t : String) : TState :=
  { s with
    area_text := t
    result := update_recommendation s.pest_data t }

/-- The detection button handler `SimplePesticideApp.run_detection` at
the state level: guarded by
`if not self.model or self.current_img is None: return`; otherwise one
model call, `pest_data` rebuilt from the detected labels, and
`update_recommendation` re-run on the new data. -/
def onRunDetection (s : TState) (labels : List String) : TState :=
  if s.modelLoaded = false ∨ s.hasImage = false then s
  else
    { s with
      pest_data := run_detection labels
      model_calls := s.model_calls + 1
      result := update_recommendation (run_detection labels) s.area_text }

/-! Lemmas about the `pest_dict` aggregation. -/

/-- The label column of a record list (the dict's key set, in order). -/
def recKeys (rs : List PestRecord) : List String := rs.map PestRecord.english

/-- Number of occurrences of label `e` in a label list. -/
def countLabel (e : String) : List String → Nat
  | [] => 0
  | l :: rest => (if l = e then 1 else 0) + countLabel e rest

/-- Total count carried by records with label `e`. -/
def recCount (e : String) : List PestRecord → Nat
  | [] => 0
  | r :: rest => (if r.english = e then r.count else 0) + recCount e rest

theorem recKeys_insertRecord (l : List PestRecord) (r : PestRecord) :
    recKeys (insertRecord l r) =
      if r.english ∈ recKeys l then recKeys l else recKeys l ++ [r.english] := by
  induction l with
  | nil => simp [insertRecord, recKeys]
  | cons x rest ih =>
      by_cases hx : x.english = r.english
      · simp [insertRecord, recKeys, hx]
      · have hx' : ¬ r.english = x.english := fun h => hx h.symm
        simp only [insertRecord, if_neg hx, recKeys, List.map_cons, List.mem_cons]
        rw [recKeys] at ih
        rw [ih]
        by_cases hm : r.english ∈ rest.map PestRecord.english
        · simp [hm, hx', recKeys]
        · simp [hm, hx', recKeys]

theorem nodup_recKeys_insertRecord {l : List PestRecord} (r : PestRecord)
    (h : (recKeys l).Nodup) : (recKeys (insertRecord l r)).Nodup := by
  rw [recKeys_insertRecord]
  by_cases hm : r.english ∈ recKeys l
  · simpa [hm] using h
  · rw [if_neg hm, ← List.concat_eq_append]
    exact h.concat hm

theorem nodup_recKeys_foldl (items : List PestRecord) :
    ∀ acc : List PestRecord, (recKeys acc).Nodup →
      (recKeys (items.foldl insertRecord acc)).Nodup := by
  induction items with
  | nil => intro acc h; simpa using h
  | cons x rest ih =>
      intro acc h
      exact ih (insertRecord acc x) (nodup_recKeys_insertRecord x h)

theorem recCount_insertRecord (e : String) (l : List PestRecord) (r : PestRecord)
    (hr : r.count = 1) :
    recCount e (insertRecord l r) = recCount e l + (if r.english = e then 1 else 0) := by
  induction l with
  | nil => simp [insertRecord, recCount, hr]
  | cons x rest ih =>
      by_cases hx : x.english = r.english
      · by_cases he : x.english = e
        · rw [insertRecord, if_pos hx]
          simp only [recCount, he, if_pos, hx ▸ he]
          omega
        · have hre : ¬ r.english = e := fun h => he (hx.trans h)
          rw [insertRecord, if_pos hx]
          simp [recCount, he, hre]
      · rw [insertRecord, if_neg hx]
        simp only [recCount, ih]
        omega

theorem recCount_foldl (e : String) (items : List PestRecord) :
    ∀ acc : List PestRecord, (∀ i ∈ items, i.count = 1) →
      recCount e (items.foldl insertRecord acc) =
        recCount e acc + countLabel e (recKeys items) := by
  induction items with
  | nil => intro acc _; simp [recKeys, countLabel]
  | cons x rest ih =>
      intro acc h
      have hx : x.count = 1 := h x (by simp)
      have hrest : ∀ i ∈ rest, i.count = 1 := fun i hi => h i (by simp [hi])
      simp only [List.foldl_cons]
      rw [ih (insertRecord acc x) hrest, recCount_insertRecord e acc x hx]
      simp only [recKeys, List.map_cons, countLabel]
      omega

theorem recCount_eq_zero_of_not_mem {e : String} {rs : List PestRecord}
    (h : e ∉ recKeys rs) : recCount e rs = 0 := by
  induction rs with
  | nil => rfl
  | cons x rest ih =>
      simp only [recKeys, List.map_cons, List.mem_cons] at h
      push_neg at h
      have hx : ¬ x.english = e := fun hh => h.1 hh.symm
      simp only [recCount, if_neg hx]
      simpa using ih (by simpa [recKeys] using h.2)

theorem recCount_of_mem_nodup {rs : List PestRecord} {r : PestRecord}
    (hd : (recKeys rs).Nodup) (hm : r ∈ rs) : recCount r.english rs = r.count := by
  induction rs with
  | nil => cases hm
  | cons x rest ih =>
      have hd' : x.english ∉ recKeys rest ∧ (recKeys rest).Nodup := by
        simpa [recKeys] using hd
      rcases List.mem_cons.mp hm with h | h
      · subst h
        simp only [recCount, if_pos rfl]
        rw [recCount_eq_zero_of_not_mem hd'.1]
        simp
      · have hmem : r.english ∈ recKeys rest := List.mem_map_of_mem PestRecord.english h
        have hne : ¬ x.english = r.english := fun he => hd'.1 (he ▸ hmem)
        simp only [recCount, if_neg hne]
        simpa using ih hd'.2 h

theorem recKeys_buildRaw (labels : List String) : recKeys (buildRaw labels) = labels := by
  induction labels with
  | nil => rfl
  | cons l rest ih => simp [buildRaw, recKeys, mkRecord] at ih ⊢; exact ih

theorem buildRaw_count_one (labels : List String) :
    ∀ i ∈ buildRaw labels, i.count = 1 := by
  intro i hi
  rcases List.mem_map.mp hi with ⟨l, _, rfl⟩
  rfl

/-- The aggregated `pest_data` has pairwise-distinct labels. -/
theorem run_detection_nodup (labels : List String) :
    ((run_detection labels).map PestRecord.english).Nodup :=
  nodup_recKeys_foldl (buildRaw labels) [] (by simp [recKeys])

/-- Each aggregated record's `count` is the number of detections of its
label. -/
theorem run_detection_count {labels : List String} {r : PestRecord}
    (hm : r ∈ run_detection labels) : r.count = countLabel r.english labels := by
  have h1 : recCount r.english (run_detection labels) = r.count :=
    recCount_of_mem_nodup (run_detection_nodup labels) hm
  have h2 : recCount r.english (run_detection labels) =
      recCount r.english [] + countLabel r.english (recKeys (buildRaw labels)) :=
    recCount_foldl r.english (buildRaw labels) [] (buildRaw_count_one labels)
  rw [recKeys_buildRaw] at h2
  rw [← h1, h2]
  simp [recCount]

/-- The non-`count` fields of a record are determined by its label via
the two reference tables, exactly as `mkRecord` fills them. -/
def FieldsOK (r : PestRecord) : Prop :=
  r.chinese = labelName r.english ∧
  r.pesticide = (pesticideFor r.english).1 ∧
  r.base_dosage = (pesticideFor r.english).2

theorem fieldsOK_insertRecord {l : List PestRecord} {r : PestRecord}
    (hl : ∀ y ∈ l, FieldsOK y) (hr : FieldsOK r) :
    ∀ x ∈ insertRecord l r, FieldsOK x := by
  induction l with
  | nil => intro x hx; simp [insertRecord] at hx; exact hx ▸ hr
  | cons y rest ih =>
      intro x hx
      by_cases hy : y.english = r.english
      · rw [insertRecord, if_pos hy] at hx
        rcases List.mem_cons.mp hx with h | h
        · have hyOK : FieldsOK y := hl y (by simp)
          subst h
          exact hyOK
        · exact hl x (by simp [h])
      · rw [insertRecord, if_neg hy] at hx
        rcases List.mem_cons.mp hx with h | h
        · exact h ▸ hl y (by simp)
        · exact ih (fun z hz => hl z (by simp [hz])) x h

theorem fieldsOK_foldl (items : List PestRecord) :
    ∀ acc : List PestRecord, (∀ y ∈ acc, FieldsOK y) → (∀ i ∈ items, FieldsOK i) →
      ∀ x ∈ items.foldl insertRecord acc, FieldsOK x := by
  induction items with
  | nil => intro acc hacc _ x hx; exact hacc x (by simpa using hx)
  | cons i rest ih =>
      intro acc hacc hitems x hx
      exact ih (insertRecord acc i)
        (fieldsOK_insertRecord hacc (hitems i (by simp)))
        (fun j hj => hitems j (by simp [hj])) x hx

/-- Every aggregated record carries the table lookups for its own
label. -/
theorem run_detection_fields {labels : List String} :
    ∀ r ∈ run_detection labels, FieldsOK r := by
  intro r hr
  refine fieldsOK_foldl (buildRaw labels) [] (by simp) ?_ r hr
  intro i hi
  rcases List.mem_map.mp hi with ⟨l, _, rfl⟩
  exact ⟨rfl, rfl, rfl⟩

/-! Claim theorems about `推荐系统.py`. -/

/-- C1 (counterexample): the claim requires an area input that parses to
a value ≤ 0 to be replaced by the default area 1, which for a single
rice-bug detection would give total dosage 50.  The code parses `"0"` to
`0` and uses it unchanged, so the rice-bug total dosage is `0`, not
`50`. -/
theorem C1_counterexample :
    parseFloat "0" = some 0 ∧
    update_recommendation (run_detection ["rice-bug"]) "0" =
      .report [⟨"稻蝽", "氯氰菊酯", 50, 0⟩] ∧
    (0 : ℚ) ≠ 50 := by
  have hp : parseFloat "0" = some (1 * ((0 : ℕ) : ℚ)) := rfl
  have h1 : run_detection ["rice-bug"] = [⟨"rice-bug", "稻蝽", "氯氰菊酯", 50, 1⟩] := by
    decide
  have h2 : areaOf "0" = 1 * ((0 : ℕ) : ℚ) := rfl
  refine ⟨by rw [hp]; norm_num, ?_, by norm_num⟩
  rw [update_recommendation, h1, h2]
  norm_num [lineOf]

/-- C1 (amended): the effective area defaults to 1 exactly when the area
text is empty or fails to parse; a successfully parsed value is used
as-is (including 0 and negative values).  In particular, with area text
`"2"` the rice-bug total dosage is 100, and with `""` or `"abc"` it
is 50. -/
theorem C1_area_defaulting :
    (∀ t : String, t = "" → areaOf t = 1) ∧
    (∀ t : String, parseFloat t = none → areaOf t = 1) ∧
    (∀ (t : String) (a : ℚ), t ≠ "" → parseFloat t = some a → areaOf t = a) ∧
    (∀ (pd : List PestRecord) (t : String), pd ≠ [] →
        update_recommendation pd t = .report (pd.map (lineOf (areaOf t)))) ∧
    update_recommendation (run_detection ["rice-bug"]) "2" =
      .report [⟨"稻蝽", "氯氰菊酯", 50, 100⟩] ∧
    update_recommendation (run_detection ["rice-bug"]) "" =
      .report [⟨"稻蝽", "氯氰菊酯", 50, 50⟩] ∧
    update_recommendation (run_detection ["rice-bug"]) "abc" =
      .report [⟨"稻蝽", "氯氰菊酯", 50, 50⟩] := by
  have h1 : run_detection ["rice-bug"] = [⟨"rice-bug", "稻蝽", "氯氰菊酯", 50, 1⟩] := by
    decide
  refine ⟨?_, ?_, ?_, ?_, ?_, ?_, ?_⟩
  · intro t h; subst h; rfl
  · intro t h
    rw [areaOf]
    split
    · rfl
    · rw [h]; rfl
  · intro t a hne hp
    have hne' : ¬ t.isEmpty = true := by simp [String.isEmpty_iff, hne]
    rw [areaOf, if_neg hne', hp]
    rfl
  · intro pd t hpd
    have hpd' : ¬ pd.isEmpty = true := by simp [List.isEmpty_iff, hpd]
    rw [update_recommendation]
    simp only [if_neg hpd']
  · have h2 : areaOf "2" = 1 * ((2 : ℕ) : ℚ) := rfl
    rw [update_recommendation, h1, h2]
    norm_num [lineOf]
  · have h2 : areaOf "" = 1 := rfl
    rw [update_recommendation, h1, h2]
    norm_num [lineOf]
  · have h2 : areaOf "abc" = 1 := rfl
    rw [update_recommendation, h1, h2]
    norm_num [lineOf]

/-- Witness for C1: the amended theorem applied at concrete inputs. -/
theorem C1_area_defaulting_witness :
    areaOf "abc" = 1 ∧ areaOf "2" = 1 * ((2 : ℕ) : ℚ) ∧
    update_recommendation [mkRecord "rice-bug"] "7" =
      .report ([mkRecord "rice-bug"].map (lineOf (areaOf "7"))) :=
  ⟨C1_area_defaulting.2.1 "abc" rfl,
   C1_area_defaulting.2.2.1 "2" (1 * ((2 : ℕ) : ℚ)) (by decide) rfl,
   C1_area_defaulting.2.2.2.1 [mkRecord "rice-bug"] "7" (by simp)⟩

/-- C2: one recommendation run produces at most one record per distinct
label, each record's `count` is the number of detections of its label,
and labels `["rice-bug", "rice-bug", "stem-borer"]` yield exactly the
two records with counts 2 and 1. -/
theorem C2_dedup_counts : ∀ labels : List String,
    ((run_detection labels).map PestRecord.english).Nodup ∧
    (∀ r ∈ run_detection labels, r.count = countLabel r.english labels) ∧
    (run_detection ["rice-bug", "rice-bug", "stem-borer"]).map
        (fun r => (r.english, r.count)) = [("rice-bug", 2), ("stem-borer", 1)] :=
  fun labels =>
    ⟨run_detection_nodup labels, fun _ hr => run_detection_count hr, by decide⟩

/-- Witness for C2: the count property applied to the rice-bug record
produced by the example run. -/
theorem C2_dedup_counts_witness :
    (⟨"rice-bug", "稻蝽", "氯氰菊酯", 50, 2⟩ : PestRecord).count =
      countLabel "rice-bug" ["rice-bug", "rice-bug", "stem-borer"] :=
  (C2_dedup_counts ["rice-bug", "rice-bug", "stem-borer"]).2.1
    ⟨"rice-bug", "稻蝽", "氯氰菊酯", 50, 2⟩ (by decide)

/-- C5 (counterexample): the claim requires `pesticide_name ==
"unknown"` for a label absent from `PESTICIDE_DB`; the code's sentinel
is the string `"未知"`, which is not the string `"unknown"`. -/
theorem C5_counterexample :
    (run_detection ["locust"]).map PestRecord.pesticide = ["未知"] ∧
    "未知" ≠ "unknown" :=
  ⟨by decide, by decide⟩

/-- C5 (amended): a detection whose label is absent from `PESTICIDE_DB`
yields the sentinel pesticide name `"未知"` ("unknown"),
`base_dosage = 0`, and total dosage 0 for every area value. -/
theorem C5_unknown_sentinel :
    ∀ (labels : List String) (r : PestRecord), r ∈ run_detection labels →
      PESTICIDE_DB.lookup r.english = none →
      r.pesticide = "未知" ∧ r.base_dosage = 0 ∧
      ∀ a : ℚ, (lineOf a r).total_dosage = 0 := by
  intro labels r hr hnone
  obtain ⟨-, hpest, hbase⟩ := run_detection_fields r hr
  rw [pesticideFor, hnone] at hpest hbase
  simp only [Option.getD] at hpest hbase
  refine ⟨hpest, hbase, fun a => ?_⟩
  simp [lineOf, hbase]

/-- Witness for C5: the amended theorem applied to the record produced
for the unknown label `"locust"`, with area 2. -/
theorem C5_unknown_sentinel_witness :
    (⟨"locust", "locust", "未知", 0, 1⟩ : PestRecord).pesticide = "未知" ∧
    (⟨"locust", "locust", "未知", 0, 1⟩ : PestRecord).base_dosage = 0 ∧
    (lineOf 2 ⟨"locust", "locust", "未知", 0, 1⟩).total_dosage = 0 := by
  have h := C5_unknown_sentinel ["locust"] ⟨"locust", "locust", "未知", 0, 1⟩
    (by decide) (by decide)
  exact ⟨h.1, h.2.1, h.2.2 2⟩

/-- C7: on an empty stored detection set, `update_recommendation`
produces the "no pests detected" sentinel (`result_label` text
`"未检测到害虫"`) for every area input, never a report — in particular
never an empty report. -/
theorem C7_empty_sentinel : ∀ t : String,
    update_recommendation [] t = .noPests ∧
    ∀ lines : List RecLine, update_recommendation [] t ≠ .report lines := by
  intro t
  refine ⟨rfl, fun lines h => ?_⟩
  exact RecOutput.noConfusion h

/-- Witness for C7: the sentinel at a concrete area text, and the
impossibility of the empty report there. -/
theorem C7_empty_sentinel_witness :
    update_recommendation [] "3" = .noPests ∧
    update_recommendation [] "3" ≠ .report [] :=
  ⟨(C7_empty_sentinel "3").1, (C7_empty_sentinel "3").2 []⟩

/-- C9: an area-text change recomputes the displayed recommendation
from the currently stored `pest_data`, does not invoke the detection
model, and leaves the stored record set unchanged. -/
theorem C9_area_change_no_redetect : ∀ (s : TState) (t : String),
    (onAreaChanged s t).pest_data = s.pest_data ∧
    (onAreaChanged s t).model_calls = s.model_calls ∧
    (onAreaChanged s t).result = update_recommendation s.pest_data t :=
  fun _ _ => ⟨rfl, rfl, rfl⟩

end Tuijian

namespace App

/-- One detected box as `VideoWorker.extract_stats` consumes it:
`int(box.cls)` is the class index and `float(box.conf)` the
confidence. -/
structure Box where
  cls : Nat
  conf : ℚ
deriving DecidableEq, Repr

/-- The per-frame statistics dict built by `VideoWorker.extract_stats`
and emitted through the `frame_ready` signal. -/
structure FrameStats where
  total_objects : Nat
  class_distribution : List (String × Nat)
  avg_confidence : ℚ
  fps : ℚ
deriving DecidableEq, Repr

/-- The attributes of a `VideoWorker` that `run`/`extract_stats` read:
the model's class-name table (`self.model.names`), the confidence
threshold passed to each model call, and the dynamic `fps` attribute
read by `getattr(self, "fps", 0)`.  `fps` is an `Option` because Python
attributes exist only once assigned: `__init__` does not create it and
no statement in `app.py` ever assigns it. -/
structure WorkerState where
  names : Nat → String
  conf_threshold : ℚ
  fpsAttr : Option ℚ

/-- Constructor `VideoWorker.__init__(model, video_source,
conf_threshold)`: it creates `model`, `video_source`, `conf_threshold`,
`running = True` and `cap = None`.  The `fps` attribute is not among
them. -/
def WorkerState.init (names : Nat → String) (conf_threshold : ℚ) : WorkerState :=
  { names := names, conf_threshold := conf_threshold, fpsAttr := none }

/-- Dict update `counts[name] = counts.get(name, 0) + 1` on the
insertion-ordered association list modelling `counts`. -/
def bump : List (String × Nat) → String → List (String × Nat)
  | [], name => [(name, 1)]
  | (k, v) :: rest, name =>
      if k = name then (k, v + 1) :: rest else (k, v) :: bump rest name

/-- Sum `sum(counts.values())`. -/
def sumValues : List (String × Nat) → Nat
  | [] => 0
  | p :: rest => p.2 + sumValues rest

/-- Method `VideoWorker.extract_stats`: one pass over `result.boxes`
accumulating the per-class counts and the confidence total, then
`avg_conf = total_conf / len(result.boxes) if result.boxes else 0`,
`total_objects = sum(counts.values())`, and
`fps = getattr(self, "fps", 0)`. -/
def extract_stats (w : WorkerState) (boxes : List Box) : FrameStats :=
  let acc := boxes.foldl
    (fun (a : List (String × Nat) × ℚ) b => (bump a.1 (w.names b.cls), a.2 + b.conf))
    ([], 0)
  { total_objects := sumValues acc.1
    class_distribution := acc.1
    avg_confidence := if boxes.isEmpty then 0 else acc.2 / (boxes.length : ℚ)
    fps := w.fpsAttr.getD 0 }

/-- Loop body of `VideoWorker.run`, abstracted over the sequence of
read outcomes of `self.cap.read()`: `some boxes` is a successful read
whose inference yields `boxes`; `none` is `ret == False`, which
OpenCV returns both for a frame it cannot decode and at end of stream
(the code cannot tell the two apart).  On `ret == False` the loop sets
`self.running = False` and `break`s; on a successful read it runs the
model, builds the stats, and emits the `(annotated frame, stats)` pair.
The value is the sequence of emitted stats, in order. -/
def runWorker (w : WorkerState) : List (Option (List Box)) → List FrameStats
  | [] => []
  | none :: _ => []
  | some boxes :: rest => extract_stats w boxes :: runWorker w rest

theorem sumValues_bump (cs : List (String × Nat)) (n : String) :
    sumValues (bump cs n) = sumValues cs + 1 := by
  induction cs with
  | nil => rfl
  | cons p rest ih =>
      obtain ⟨k, v⟩ := p
      by_cases hk : k = n
      · simp [bump, hk, sumValues]
        omega
      · simp [bump, hk, sumValues, ih]
        omega

theorem sumValues_statsLoop (w : WorkerState) (boxes : List Box) :
    ∀ (cs : List (String × Nat)) (t : ℚ),
      sumValues ((boxes.foldl
        (fun (a : List (String × Nat) × ℚ) b => (bump a.1 (w.names b.cls), a.2 + b.conf))
        (cs, t)).1) = sumValues cs + boxes.length := by
  induction boxes with
  | nil => intro cs t; simp
  | cons b rest ih =>
      intro cs t
      simp only [List.foldl_cons, List.length_cons]
      rw [ih (bump cs (w.names b.cls)) (t + b.conf), sumValues_bump]
      omega

/-- C8: for every worker and detection sequence,
`extract_stats` satisfies `total_objects = len(boxes)` and
`sum(class_distribution.values()) = total_objects`. -/
theorem C8_aggregate_invariant : ∀ (w : WorkerState) (boxes : List Box),
    (extract_stats w boxes).total_objects = boxes.length ∧
    sumValues (extract_stats w boxes).class_distribution =
      (extract_stats w boxes).total_objects := by
  intro w boxes
  constructor
  · show sumValues _ = _
    rw [sumValues_statsLoop w boxes [] 0]
    simp [sumValues]
  · rfl

/-- C4 (counterexample): with reads (good frame, corrupt frame, good
frame), the claim predicts both good frames are processed (the corrupt
one skipped); the loop in `VideoWorker.run` instead breaks at the first
failed read, publishing stats for one frame only, and the second good
frame is never processed. -/
theorem C4_counterexample :
    runWorker (WorkerState.init (fun _ => "pest") (3 / 10))
        [some [⟨0, 1 / 2⟩], none, some [⟨0, 9 / 10⟩]] =
      [extract_stats (WorkerState.init (fun _ => "pest") (3 / 10)) [⟨0, 1 / 2⟩]] ∧
    (runWorker (WorkerState.init (fun _ => "pest") (3 / 10))
        [some [⟨0, 1 / 2⟩], none, some [⟨0, 9 / 10⟩]]).length = 1 ∧
    (1 : ℕ) ≠ 2 :=
  ⟨rfl, rfl, by decide⟩

/-- C4 (amended): any failed `cap.read()` — a corrupt frame just like
end of stream — terminates the streaming loop: every frame before the
first failed read is processed and published, and nothing after the
failed read ever is. -/
theorem C4_read_failure_terminates :
    ∀ (w : WorkerState) (good : List (List Box)) (rest : List (Option (List Box))),
      runWorker w (good.map some ++ none :: rest) = good.map (extract_stats w) ∧
      runWorker w (good.map some) = good.map (extract_stats w) := by
  intro w good rest
  induction good with
  | nil => exact ⟨rfl, rfl⟩
  | cons g gs ih =>
      constructor
      · simp only [List.map_cons, List.cons_append, runWorker, List.append_eq]
        rw [ih.1]
      · simp only [List.map_cons, runWorker]
        rw [ih.2]

/-- Modelled from the spec's words, for comparison with the code (the
source contains no elapsed-time measurement at all): the fps the claim
attributes to a published `FrameStats`, namely the processing rate
derived from the elapsed time of the preceding cycle. -/
def specMeasuredFps (elapsed : ℚ) : ℚ := 1 / elapsed

/-- C6 (counterexample): in a two-frame streaming run whose cycles each
take half a second, the claim predicts the second published `fps` to be
the measured rate `specMeasuredFps (1/2) = 2`; the code publishes
`fps = 0` for every frame, because `getattr(self, "fps", 0)` always
falls back to `0`. -/
theorem C6_counterexample :
    (runWorker (WorkerState.init (fun _ => "pest") (3 / 10))
        [some [⟨0, 1 / 2⟩], some [⟨0, 1 / 2⟩]]).map FrameStats.fps = [0, 0] ∧
    specMeasuredFps (1 / 2) = 2 ∧ (0 : ℚ) ≠ 2 := by
  refine ⟨rfl, ?_, by norm_num⟩
  rw [specMeasuredFps]
  norm_num

/-- C6 (amended): the worker never assigns the `fps` attribute and
never measures elapsed time, so every `FrameStats` published during a
streaming run carries `fps = 0` (and single-shot mode never builds a
`FrameStats` dict at all). -/
theorem C6_fps_always_zero :
    ∀ (names : Nat → String) (c : ℚ) (reads : List (Option (List Box)))
      (s : FrameStats), s ∈ runWorker (WorkerState.init names c) reads → s.fps = 0 := by
  intro names c reads
  induction reads with
  | nil => intro s hs; cases hs
  | cons r rest ih =>
      intro s hs
      match r with
      | none => cases hs
      | some boxes =>
          rcases List.mem_cons.mp hs with h | h
          · subst h; rfl
          · exact ih s h

/-- Witness for C6: the amended theorem applied to the single stats
record of a one-frame run. -/
theorem C6_fps_always_zero_witness :
    (extract_stats (WorkerState.init (fun _ => "pest") (3 / 10)) [⟨0, 1 / 2⟩]).fps = 0 :=
  C6_fps_always_zero (fun _ => "pest") (3 / 10) [some [⟨0, 1 / 2⟩]]
    (extract_stats (WorkerState.init (fun _ => "pest") (3 / 10)) [⟨0, 1 / 2⟩])
    (List.mem_singleton.mpr rfl)

/-- One dialog shown by `YOLODetector.show_message` (a
`QMessageBox.critical` when `is_error`, else an information box). -/
structure Msg where
  title : String
  text : String
  isError : Bool
deriving DecidableEq, Repr

/-- The `YOLODetector` attributes its control flow reads or writes,
together with three observation counters.  `file_path` and `last_image`
are `Option`s because the corresponding Python attributes exist only
once assigned (`hasattr` guards the uses of `file_path` and
`last_image`, but `start_detection` reads `file_path` unguarded);
`worker` holds the id of the running `VideoWorker`, ids being allocated
in construction order; `openedWorkers` counts `VideoWorker(...)`
constructions (each one opens a `cv2.VideoCapture` frame source in
`run`); `imagesWritten` counts the `cv2.imwrite` calls made by
`save_result`; `attrErrors` counts the `AttributeError`s a handler
raises by reading a never-assigned attribute, each of which aborts the
rest of that handler. -/
structure Detector where
  modelLoaded : Bool
  model_path : String
  sourceType : Nat
  file_path : Option String
  worker : Option Nat
  startBtnEnabled : Bool
  stopBtnEnabled : Bool
  dark_theme : Bool
  last_image : Option Nat
  openedWorkers : Nat
  imagesWritten : Nat
  attrErrors : Nat
  msgs : List Msg
deriving DecidableEq, Repr

/-- Constructor `YOLODetector.__init__` together with the widget state
after `init_ui` (push buttons are created enabled; the `inputCombo`
starts at index 0, the camera).  Neither `file_path` nor `last_image`
exists yet. -/
def Detector.init : Detector :=
  { modelLoaded := false
    model_path := ""
    sourceType := 0
    file_path := none
    worker := none
    startBtnEnabled := true
    stopBtnEnabled := true
    dark_theme := true
    last_image := none
    openedWorkers := 0
    imagesWritten := 0
    attrErrors := 0
    msgs := [] }

/-- Method `YOLODetector.show_message`. -/
def show_message (s : Detector) (title text : String) (e : Bool) : Detector :=
  { s with msgs := s.msgs ++ [⟨title, text, e⟩] }

/-- Method `YOLODetector.load_model`: `chosen` is the file-dialog
outcome, `ok` whether `YOLO(file_name).to('cpu')` succeeds.  The two
exception branches (file not found / generic) are collapsed into one
error message; neither assigns any attribute beyond status text. -/
def load_model (s : Detector) (chosen : Option String) (ok : Bool) : Detector :=
  match chosen with
  | none => show_message s "提示" "未选择任何文件。" false
  | some f =>
      if ok then
        show_message { s with modelLoaded := true, model_path := f } "成功" "模型加载完成" false
      else show_message s "加载失败" "加载模型时发生错误" true

/-- Method `YOLODetector.select_input_file`: assigns `self.file_path`
only for the video (index 1) and image (index 2) sources; a cancelled
dialog still assigns (the empty string). -/
def select_input_file (s : Detector) (chosen : String) : Detector :=
  if s.sourceType = 1 ∨ s.sourceType = 2 then { s with file_path := some chosen } else s

/-- Method `YOLODetector.process_single_image`: guarded by
`hasattr(self, "file_path")` and `os.path.exists`; on success it reads
the image, runs the model once, and displays the annotated image and
stats — assigning none of the tracked attributes (in particular not
`last_image`). -/
def process_single_image (s : Detector) (fileExists : Bool) : Detector :=
  match s.file_path with
  | none => show_message s "警告" "请选择有效的图片文件！" true
  | some _ =>
      if fileExists then s
      else show_message s "警告" "请选择有效的图片文件！" true

/-- Method `YOLODetector.start_detection`: warn if no model is loaded;
single-shot path for source index 2; otherwise the streaming path first
disables the start button, enables the stop button and sets the status
text, then evaluates
`video_source = 0 if source_type == 0 else self.file_path`, and only
then constructs and starts a new `VideoWorker` (a new frame source).
The `self.file_path` read is unguarded: with a non-camera source and no
file ever selected the attribute does not exist, so the handler raises
`AttributeError` right there — after the button toggles, before any
`VideoWorker` is constructed.  The method contains no check that a
worker is already running. -/
def start_detection (s : Detector) (fileExists : Bool) : Detector :=
  if ¬ s.modelLoaded then show_message s "警告" "请先加载模型！" true
  else if s.sourceType = 2 then process_single_image s fileExists
  else if s.sourceType ≠ 0 ∧ s.file_path = none then
    { s with
      startBtnEnabled := false
      stopBtnEnabled := true
      attrErrors := s.attrErrors + 1 }
  else
    { s with
      startBtnEnabled := false
      stopBtnEnabled := true
      worker := some s.openedWorkers
      openedWorkers := s.openedWorkers + 1 }

/-- A user click on the start button: Qt emits `clicked` (and hence
runs `start_detection`) only while the button is enabled. -/
def clickStart (s : Detector) (fileExists : Bool) : Detector :=
  if s.startBtnEnabled then start_detection s fileExists else s

/-- Method `YOLODetector.stop_detection`: stop and drop the worker,
re-enable start, disable stop. -/
def stop_detection (s : Detector) : Detector :=
  { s with worker := none, startBtnEnabled := true, stopBtnEnabled := false }

/-- A user click on the stop button (emitted only while enabled). -/
def clickStop (s : Detector) : Detector :=
  if s.stopBtnEnabled then stop_detection s else s

/-- Slot `YOLODetector.display_image_and_stats`, connected to the
worker's `frame_ready` signal: paints the frame and updates the stats
card; it assigns none of the tracked attributes (in particular not
`last_image`). -/
def display_image_and_stats (s : Detector) : Detector := s

/-- Method `YOLODetector.save_result`: without a `last_image` attribute
it warns and returns before any dialog or write; with one it would ask
for a destination and call `cv2.imwrite`. -/
def save_result (s : Detector) (chosen : Option String) : Detector :=
  match s.last_image with
  | none => show_message s "警告" "没有可保存的结果！" true
  | some _ =>
      match chosen with
      | none => s
      | some f =>
          show_message { s with imagesWritten := s.imagesWritten + 1 }
            "保存成功" ("结果已保存至: " ++ f) false

/-- Method `YOLODetector.change_theme` (connected to the theme combo
box). -/
def change_theme (s : Detector) (i : Nat) : Detector :=
  show_message { s with dark_theme := i == 0 } "主题已切换"
    (if i == 0 then "当前主题: 暗黑" else "当前主题: 亮白") false

/-- Method `YOLODetector.closeEvent`: stops the worker thread but
assigns no tracked attribute. -/
def close_event (s : Detector) : Detector := s

/-- The user-visible events of the streaming application.  Dialog and
filesystem outcomes travel as parameters. -/
inductive Op where
  | loadModel (chosen : Option String) (ok : Bool)
  | selectInput (chosen : String)
  | setSource (i : Nat)
  | clickStartBtn (fileExists : Bool)
  | frameReady
  | clickStopBtn
  | clickSaveBtn (chosen : Option String)
  | themeChanged (i : Nat)
  | close
deriving DecidableEq, Repr

/-- Event dispatch: each event runs its connected handler. -/
def step (s : Detector) : Op → Detector
  | .loadModel chosen ok => load_model s chosen ok
  | .selectInput chosen => select_input_file s chosen
  | .setSource i => { s with sourceType := i }
  | .clickStartBtn fe => clickStart s fe
  | .frameReady => display_image_and_stats s
  | .clickStopBtn => clickStop s
  | .clickSaveBtn chosen => save_result s chosen
  | .themeChanged i => change_theme s i
  | .close => close_event s

/-- A run of the application: the state after a sequence of events. -/
def runOps (s : Detector) (ops : List Op) : Detector := ops.foldl step s

theorem step_preserves_no_last_image (s : Detector) (op : Op)
    (h : s.last_image = none) :
    (step s op).last_image = none ∧ (step s op).imagesWritten = s.imagesWritten := by
  cases op with
  | loadModel chosen ok =>
      cases chosen with
      | none => exact ⟨h, rfl⟩
      | some f =>
          by_cases hok : ok
            <;> simp [step, load_model, show_message, hok, h]
  | selectInput chosen =>
      by_cases hs : s.sourceType = 1 ∨ s.sourceType = 2
        <;> simp [step, select_input_file, hs, h]
  | setSource i => exact ⟨h, rfl⟩
  | clickStartBtn fe =>
      by_cases hb : s.startBtnEnabled
      · by_cases hm : s.modelLoaded
        · by_cases h2 : s.sourceType = 2
          · cases hf : s.file_path with
            | none =>
                simp [step, clickStart, start_detection, process_single_image,
                  show_message, hb, hm, h2, hf, h]
            | some f =>
                by_cases hex : fe
                  <;> simp [step, clickStart, start_detection, process_single_image,
                        show_message, hb, hm, h2, hf, hex, h]
          · by_cases herr : s.sourceType ≠ 0 ∧ s.file_path = none
              <;> simp [step, clickStart, start_detection, hb, hm, h2, herr, h]
        · simp [step, clickStart, start_detection, show_message, hb, hm, h]
      · simp [step, clickStart, hb, h]
  | frameReady => exact ⟨h, rfl⟩
  | clickStopBtn =>
      by_cases hb : s.stopBtnEnabled
        <;> simp [step, clickStop, stop_detection, hb, h]
  | clickSaveBtn chosen =>
      simp [step, save_result, h, show_message]
  | themeChanged i =>
      simp [step, change_theme, show_message, h]
  | close => exact ⟨h, rfl⟩

theorem runOps_preserves_no_last_image (ops : List Op) :
    ∀ s : Detector, s.last_image = none →
      (runOps s ops).last_image = none ∧
      (runOps s ops).imagesWritten = s.imagesWritten := by
  induction ops with
  | nil => intro s h; exact ⟨h, rfl⟩
  | cons op rest ih =>
      intro s h
      have hstep := step_preserves_no_last_image s op h
      have hrest := ih (step s op) hstep.1
      exact ⟨hrest.1, hrest.2.trans hstep.2⟩

/-- C10: in every state reachable from startup by any event sequence,
`last_image` is still unassigned (no handler ever assigns it), so
`save_result` always takes the "没有可保存的结果" branch and the
application never writes an image file. -/
theorem C10_save_never_writes : ∀ (ops : List Op) (chosen : Option String),
    (runOps Detector.init ops).last_image = none ∧
    (runOps Detector.init ops).imagesWritten = 0 ∧
    save_result (runOps Detector.init ops) chosen =
      show_message (runOps Detector.init ops) "警告" "没有可保存的结果！" true := by
  intro ops chosen
  have h := runOps_preserves_no_last_image ops Detector.init rfl
  refine ⟨h.1, h.2, ?_⟩
  rw [save_result.eq_def, h.1]

/-- C3 (counterexample): with a model loaded and the camera source
selected, a first `start_detection` call opens one worker; calling
`start_detection` again with no intervening stop performs no
`AlreadyRunning` check — it emits no message at all and constructs a
second `VideoWorker` (a second frame source). -/
theorem C3_counterexample :
    (start_detection { Detector.init with modelLoaded := true } true).openedWorkers = 1 ∧
    (start_detection { Detector.init with modelLoaded := true } true).worker = some 0 ∧
    (start_detection (start_detection { Detector.init with modelLoaded := true } true)
        true).openedWorkers = 2 ∧
    (start_detection (start_detection { Detector.init with modelLoaded := true } true)
        true).worker = some 1 ∧
    (start_detection (start_detection { Detector.init with modelLoaded := true } true)
        true).msgs =
      (start_detection { Detector.init with modelLoaded := true } true).msgs := by
  decide

/-- C3 (amended): `start_detection` itself performs no running-state
check; re-entrancy is prevented only at the UI level: entering the
streaming branch disables the start button, a click on a disabled
button does not invoke `start_detection`, and therefore two start
clicks open exactly one frame source.  This holds in the streaming
states where a frame source is determined (camera selected, or a
`file_path` attribute exists); in the remaining streaming states the
unguarded `self.file_path` read raises `AttributeError` after the
button toggles, so no worker is constructed at all there.  (A direct
second call of the method, bypassing the button, does open a second
source, as the counterexample shows.) -/
theorem C3_start_reentrancy :
    ∀ (s : Detector) (fe fe2 : Bool),
      s.modelLoaded = true → s.sourceType ≠ 2 →
      (s.sourceType = 0 ∨ s.file_path ≠ none) →
      (start_detection s fe).startBtnEnabled = false ∧
      (start_detection s fe).openedWorkers = s.openedWorkers + 1 ∧
      (∀ s' : Detector, s'.startBtnEnabled = false → clickStart s' fe2 = s') ∧
      (s.startBtnEnabled = true →
        (clickStart (clickStart s fe) fe2).openedWorkers = s.openedWorkers + 1) ∧
      (∀ s'' : Detector, s''.modelLoaded = true → s''.sourceType ≠ 2 →
        s''.sourceType ≠ 0 → s''.file_path = none →
        (start_detection s'' fe2).worker = s''.worker ∧
        (start_detection s'' fe2).openedWorkers = s''.openedWorkers ∧
        (start_detection s'' fe2).attrErrors = s''.attrErrors + 1) := by
  intro s fe fe2 hm hs hsrc
  have hnoerr : ¬ (s.sourceType ≠ 0 ∧ s.file_path = none) := by
    rcases hsrc with h0 | hfp
    · exact fun hc => hc.1 h0
    · exact fun hc => hfp hc.2
  have hstart : start_detection s fe =
      { s with
        startBtnEnabled := false
        stopBtnEnabled := true
        worker := some s.openedWorkers
        openedWorkers := s.openedWorkers + 1 } := by
    rw [start_detection, if_neg (by simp [hm]), if_neg hs, if_neg hnoerr]
  refine ⟨by rw [hstart], by rw [hstart], ?_, ?_, ?_⟩
  · intro s' h
    rw [clickStart, h]
    simp
  · intro hb
    have hclick : clickStart s fe = start_detection s fe := by
      rw [clickStart, if_pos hb]
    rw [hclick, hstart, clickStart]
    simp
  · intro s'' hm'' hs'' h0'' hfp''
    have herr : start_detection s'' fe2 =
        { s'' with
          startBtnEnabled := false
          stopBtnEnabled := true
          attrErrors := s''.attrErrors + 1 } := by
      rw [start_detection, if_neg (by simp [hm'']), if_neg hs'', if_pos ⟨h0'', hfp''⟩]
    rw [herr]
    exact ⟨rfl, rfl, rfl⟩

/-- Witness for C3: the amended theorem applied at a loaded-model
camera-source state (two start clicks leave exactly one opened worker)
and at a loaded-model video-source state with no file selected (the
`AttributeError` path constructs no worker). -/
theorem C3_start_reentrancy_witness :
    (clickStart (clickStart { Detector.init with modelLoaded := true } true) true).openedWorkers =
      Detector.init.openedWorkers + 1 ∧
    (start_detection { Detector.init with modelLoaded := true, sourceType := 1 }
        true).openedWorkers =
      { Detector.init with modelLoaded := true, sourceType := 1 }.openedWorkers :=
  ⟨(C3_start_reentrancy { Detector.init with modelLoaded := true } true true rfl
      (by decide) (Or.inl rfl)).2.2.2.1 rfl,
   ((C3_start_reentrancy { Detector.init with modelLoaded := true } true true rfl
      (by decide) (Or.inl rfl)).2.2.2.2
      { Detector.init with modelLoaded := true, sourceType := 1 } rfl
      (by decide) (by decide) rfl).2.1⟩

end App
